import Mathlib

/-!
Verification development for the SOLTAG attendance-claim pipeline.

Strings of the TypeScript source are modelled as lists of characters
(`Str`), JavaScript numbers holding timestamps as integers, and the
insertion-ordered JavaScript `Set` of nonces as a duplicate-free list in
insertion order (oldest first).  External library calls (JSON.parse,
bs58.decode, ed25519.verify, SHA-256, the network) are modelled as
explicit parameters or outcome streams; everything else is translated
directly from the source files.
-/

namespace Soltag

/-- Strings of the source, as lists of characters. -/
abbrev Str := List Char

/-- QR_SCHEMA.maxPayloadSize from src/services/qrValidator.ts (bytes). -/
def maxPayloadSize : Nat := 2048

/-- QR_SCHEMA.maxNonceAge from src/services/qrValidator.ts (5 minutes in ms). -/
def maxNonceAge : Int := 300000

/-- The QRPayload interface from src/types/index.ts.  A value of this type
corresponds to a JSON object that already carries every required field with
the right primitive type; the remaining schema checks are the length bounds
of validateSchema. -/
structure QRPayload where
  v : Int
  event_id : Str
  asset : Str
  nonce : Str
  issued_at : Int
  expires_at : Int
  zone : Str
  sig : Str
deriving DecidableEq, Repr

/-- The length sanity bounds of validateSchema (qrValidator.ts).  Field
presence and primitive typing are guaranteed by the QRPayload type itself;
what remains of the source checks are the minimum-length bounds. -/
def validateSchema (payload : QRPayload) : Bool :=
  8 ≤ payload.event_id.length && 32 ≤ payload.asset.length &&
    2 ≤ payload.zone.length && 8 ≤ payload.nonce.length && 64 ≤ payload.sig.length

/-- parseQRCode (qrValidator.ts): size bound, then JSON.parse, then schema.
JSON.parse is abstracted: `rawSize` is the length of the raw scanned text and
`parsed` is the structured object it denotes, none when it is not valid JSON
for the payload shape. -/
def parseQRCode (rawSize : Nat) (parsed : Option QRPayload) : Option QRPayload :=
  if maxPayloadSize < rawSize then none
  else
    match parsed with
    | none => none
    | some payload => if validateSchema payload then some payload else none

/-- Result record of verifySignature (qrValidator.ts). -/
structure SigResult where
  valid : Bool
  error : Option String
deriving DecidableEq, Repr

/-- buildSignatureMessage (qrValidator.ts): JSON.stringify of the canonical
field set in canonical order. -/
def buildSignatureMessage (payload : QRPayload) : Str :=
  "\x7b\"v\":".data ++ (toString payload.v).data ++
    ",\"event_id\":\"".data ++ payload.event_id ++
    "\",\"asset\":\"".data ++ payload.asset ++
    "\",\"nonce\":\"".data ++ payload.nonce ++
    "\",\"issued_at\":".data ++ (toString payload.issued_at).data ++
    ",\"expires_at\":".data ++ (toString payload.expires_at).data ++
    ",\"zone\":\"".data ++ payload.zone ++ "\"\x7d".data

/-- verifySignature (qrValidator.ts).  The bs58 decoder and the ed25519
verifier are the external cryptographic collaborators, passed in as `dec`
and `ver`; a decode failure is the caught exception path of the source and
yields the generic failure result.  The source consults only the first
trusted key (`trustedEventKeys[0] || ""`); no membership test of any payload
field against the trusted set is performed. -/
def verifySignature (dec : Str → Option (List Nat)) (ver : List Nat → Str → List Nat → Bool)
    (payload : QRPayload) (trustedEventKeys : List Str) : SigResult :=
  match dec payload.sig, dec (trustedEventKeys.headD []) with
  | some sigBytes, some pkBytes =>
      if ver sigBytes (buildSignatureMessage payload) pkBytes then ⟨true, none⟩
      else ⟨false, some "Invalid signature"⟩
  | _, _ => ⟨false, some "Signature verification failed"⟩

/-- The timeWindow sub-status of VerificationStatus (types/index.ts). -/
inductive TimeStatus
  | checking
  | valid
  | expired
  | notStarted
deriving DecidableEq, Repr

/-- Result record of validateTimeWindow (qrValidator.ts). -/
structure TimeResult where
  valid : Bool
  status : TimeStatus
deriving DecidableEq, Repr

/-- validateTimeWindow (qrValidator.ts).  The source computes
`now = Math.floor(Date.now() / 1000)`; that Unix-seconds clock value is the
`nowSec` parameter here. -/
def validateTimeWindow (nowSec : Int) (payload : QRPayload) : TimeResult :=
  if nowSec < payload.issued_at then ⟨false, TimeStatus.notStarted⟩
  else if payload.expires_at < nowSec then ⟨false, TimeStatus.expired⟩
  else ⟨true, TimeStatus.valid⟩

/-- Result record of checkNonceReplay (qrValidator.ts). -/
structure NonceResult where
  valid : Bool
  error : Option String
deriving DecidableEq, Repr

/-- checkNonceReplay (qrValidator.ts): strict TTL bound from `payloadTs`
(milliseconds), then the duplicate membership test.  `nowMs` is the
`Date.now()` millisecond clock value. -/
def checkNonceReplay (nowMs : Int) (nonce : Str) (payloadTs : Int)
    (usedNonces : List Str) : NonceResult :=
  if maxNonceAge < nowMs - payloadTs then
    ⟨false, some "QR code has expired (TTL exceeded)"⟩
  else if nonce ∈ usedNonces then
    ⟨false, some "Nonce already used - possible replay attack"⟩
  else ⟨true, none⟩

/-- JavaScript `Set.add` on an insertion-ordered duplicate-free list:
adding an existing element leaves the set (and its order) unchanged. -/
def setAdd (s : List Str) (x : Str) : List Str :=
  if x ∈ s then s else s ++ [x]

/-- recordNonce (qrValidator.ts): add the nonce, then if the set exceeds
1000 entries keep only the 500 most recent (`Array.from` preserves insertion
order and `slice(-500)` keeps the last 500). -/
def recordNonce (nonce : Str) (usedNonces : List Str) : List Str :=
  let s := setAdd usedNonces nonce
  if 1000 < s.length then s.drop (s.length - 500) else s

/-- The signature sub-status of VerificationStatus (types/index.ts). -/
inductive SigStatus
  | checking
  | valid
  | invalid
deriving DecidableEq, Repr

/-- The location sub-status of VerificationStatus (types/index.ts). -/
inductive LocStatus
  | checking
  | valid
  | mismatch
  | denied
deriving DecidableEq, Repr

/-- The duplicate sub-status of VerificationStatus (types/index.ts). -/
inductive DupStatus
  | checking
  | clear
  | duplicate
deriving DecidableEq, Repr

/-- The onChain sub-status of VerificationStatus (types/index.ts). -/
inductive ChainStatus
  | waiting
  | signing
  | confirming
  | finalized
  | failed
deriving DecidableEq, Repr

/-- VerificationStatus (types/index.ts): the four-sub-status verdict record
plus the on-chain progress field. -/
structure VerificationStatus where
  signature : SigStatus
  timeWindow : TimeStatus
  location : LocStatus
  duplicate : DupStatus
  onChain : ChainStatus
deriving DecidableEq, Repr

/-- The all-checking initial verdict created when a scan begins
(validateQRPayload / VerifyScanScreen.tsx). -/
def initialStatus : VerificationStatus :=
  ⟨SigStatus.checking, TimeStatus.checking, LocStatus.checking, DupStatus.checking,
    ChainStatus.waiting⟩

/-- validateQRPayload (qrValidator.ts): parse and schema, then signature,
then time window, then nonce replay and TTL; the location check runs
elsewhere and stays `checking` here.  `nowMs` is the `Date.now()` value; the
time-window step floors it to Unix seconds exactly as the source does. -/
def validateQRPayload (dec : Str → Option (List Nat)) (ver : List Nat → Str → List Nat → Bool)
    (nowMs : Int) (rawSize : Nat) (parsed : Option QRPayload)
    (trustedEventKeys : List Str) (usedNonces : List Str) :
    VerificationStatus × Option QRPayload :=
  match parseQRCode rawSize parsed with
  | none => ({ initialStatus with signature := SigStatus.invalid }, none)
  | some payload =>
    if (verifySignature dec ver payload trustedEventKeys).valid then
      let timeResult := validateTimeWindow (Int.fdiv nowMs 1000) payload
      if timeResult.valid then
        let nonceResult :=
          checkNonceReplay nowMs payload.nonce (payload.issued_at * 1000) usedNonces
        if nonceResult.valid then
          ({ initialStatus with
              signature := SigStatus.valid
              timeWindow := timeResult.status
              duplicate := DupStatus.clear }, some payload)
        else
          ({ initialStatus with
              signature := SigStatus.valid
              timeWindow := timeResult.status
              duplicate := DupStatus.duplicate }, some payload)
      else
        ({ initialStatus with
            signature := SigStatus.valid
            timeWindow := timeResult.status }, some payload)
    else ({ initialStatus with signature := SigStatus.invalid }, none)

/-- Outcome of the zone verification collaborator verifyZone
(zone module of src/data/mockData.ts): the location stage either succeeds,
mismatches, or is denied/unavailable. -/
inductive ZoneOutcome
  | valid
  | mismatch
  | denied
  | unavailable
deriving DecidableEq, Repr

/-- performVerification (VerifyScanScreen.tsx): run validateQRPayload, then
map the zone outcome to the location sub-status (`valid` when the zone check
succeeded, `mismatch` otherwise, and `mismatch` when no payload survived
validation), and record the nonce exactly when signature, time window,
duplicate and location all resolved successfully.  The result carries the
final verdict, the used-nonce ledger after the run, and the nonce committed
by the run, if any. -/
def performVerification (dec : Str → Option (List Nat)) (ver : List Nat → Str → List Nat → Bool)
    (nowMs : Int) (rawSize : Nat) (parsed : Option QRPayload)
    (trustedEventKeys : List Str) (usedNonces : List Str) (zoneOutcome : ZoneOutcome) :
    VerificationStatus × List Str × Option Str :=
  let vr := validateQRPayload dec ver nowMs rawSize parsed trustedEventKeys usedNonces
  match vr.2 with
  | some payload =>
      let locationStatus :=
        if zoneOutcome = ZoneOutcome.valid then LocStatus.valid else LocStatus.mismatch
      if vr.1.signature = SigStatus.valid ∧ vr.1.timeWindow = TimeStatus.valid ∧
          vr.1.duplicate = DupStatus.clear ∧ locationStatus = LocStatus.valid then
        ({ vr.1 with location := locationStatus },
          recordNonce payload.nonce usedNonces, some payload.nonce)
      else ({ vr.1 with location := locationStatus }, usedNonces, none)
  | none => ({ vr.1 with location := LocStatus.mismatch }, usedNonces, none)

/-- checkZoneMatch (zone module of src/data/mockData.ts): direct match
against any allowed zone, else with positive tolerance compare both codes
truncated to `max 1 (userZone.length - tolerance)` characters. -/
def checkZoneMatch (userZone : Str) (allowedZones : List Str) (tolerance : Nat) :
    Option Str :=
  match allowedZones.find? (fun zone => zone == userZone) with
  | some zone => some zone
  | none =>
      if 0 < tolerance then
        let prefixLength := max 1 (userZone.length - tolerance)
        allowedZones.find? (fun zone =>
          zone.take prefixLength == userZone.take prefixLength)
      else none

/-- Acceptance predicate claimed for zone matching, following the claim
words: the observed code equals some allowed code, or with tolerance k > 0
it shares a (length - k)-character prefix with some allowed code. -/
def zoneMatchSpec (userZone : Str) (allowedZones : List Str) (tolerance : Nat) : Prop :=
  (∃ zone ∈ allowedZones, userZone = zone) ∨
    (0 < tolerance ∧ ∃ zone ∈ allowedZones,
      userZone.take (userZone.length - tolerance) =
        zone.take (userZone.length - tolerance))

/-- Queue item status (types/index.ts). -/
inductive QStatus
  | signed
  | pending
  | needsResign
  | failed
deriving DecidableEq, Repr

/-- QueueItem (types/index.ts). -/
structure QueueItem where
  id : Str
  signedTx : Str
  eventId : Str
  eventName : Str
  createdAt : Int
  status : QStatus
  retries : Nat
deriving DecidableEq, Repr

/-- handleRetry (OfflineQueueScreen.tsx): if the item id is present in the
queue, set its status to pending and increment its retry counter, leaving
every other field (in particular the signed transaction) unchanged.
handleRetryAll invokes this per item.  The persisted copy receives the same
partial update through updateQueueItem. -/
def handleRetry (queueItems : List QueueItem) (itemId : Str) : List QueueItem :=
  match queueItems.find? (fun item => item.id == itemId) with
  | none => queueItems
  | some _ =>
      queueItems.map (fun item =>
        if item.id == itemId then
          { item with status := QStatus.pending, retries := item.retries + 1 }
        else item)

/-- The request body posted to the /mint relay by mintAttendanceNFT
(src/data/mockData.ts): the whole payload, zone included, plus the wallet. -/
structure MintRequest where
  payload : QRPayload
  wallet : Str
deriving DecidableEq, Repr

/-- The row inserted into the attendance table by mintAttendanceNFT
(src/data/mockData.ts): `zone_hash: payload.zone` writes the zone value of
the payload into the zone_hash column. -/
structure AttendanceInsert where
  user_id : Str
  event_id : Str
  tx_sig : Str
  zone_hash : Str
deriving DecidableEq, Repr

/-- mintAttendanceNFT (src/data/mockData.ts), restricted to the data it
persists and transmits: the relay request body and the attendance row. -/
def mintAttendanceNFT (payload : QRPayload) (walletPubkey : Str)
    (userId : Str) (txSig : Str) : MintRequest × AttendanceInsert :=
  (⟨payload, walletPubkey⟩, ⟨userId, payload.event_id, txSig, payload.zone⟩)

/-- API_CONFIG.retryDelay (api module of src/data/mockData.ts), ms. -/
def retryDelay : Nat := 1000

/-- API_CONFIG.maxRetries (api module of src/data/mockData.ts). -/
def defaultMaxRetries : Nat := 3

/-- Outcome of one secureFetch attempt: an HTTP response with a status
code, or a thrown network/timeout error. -/
inductive AttemptOutcome
  | ok (status : Nat)
  | netError (msg : String)
deriving DecidableEq, Repr

/-- One loop body of fetchWithRetry (api module of src/data/mockData.ts):
given the attempt outcome and the current lastError, return the status to
return immediately (response.ok, i.e. 2xx, or a 4xx client error) or none
to fall through to a retry, together with the updated lastError (set on a
5xx server error or a thrown error, untouched otherwise). -/
def attemptResult (outcome : AttemptOutcome) (lastError : Option String) :
    Option Nat × Option String :=
  match outcome with
  | AttemptOutcome.ok status =>
      if (200 ≤ status ∧ status < 300) ∨ (400 ≤ status ∧ status < 500) then
        (some status, lastError)
      else if 500 ≤ status then (none, some ("Server error: " ++ toString status))
      else (none, lastError)
  | AttemptOutcome.netError msg => (none, some msg)

/-- Whether an attempt outcome falls through to a retry. -/
def retriesOn (outcome : AttemptOutcome) : Bool :=
  (attemptResult outcome none).1.isNone

/-- The retry loop of fetchWithRetry, unrolled on the remaining number of
loop iterations (`fuel`, kept equal to `maxRetries + 1 - attempt`).  The
result is the returned status or thrown error, the number of attempts
performed, and the list of backoff delays waited (retryDelay * 2 ^ attempt,
waited only while attempt < maxRetries). -/
def fetchAux (resp : Nat → AttemptOutcome) (maxRetries : Nat) :
    Nat → Nat → Option String → Except String Nat × Nat × List Nat
  | _, 0, lastError =>
      (Except.error (lastError.getD "Request failed after retries"), 0, [])
  | attempt, fuel + 1, lastError =>
      let ar := attemptResult (resp attempt) lastError
      match ar.1 with
      | some status => (Except.ok status, 1, [])
      | none =>
          let rest := fetchAux resp maxRetries (attempt + 1) fuel ar.2
          if attempt < maxRetries then
            (rest.1, rest.2.1 + 1, retryDelay * 2 ^ attempt :: rest.2.2)
          else (rest.1, rest.2.1 + 1, rest.2.2)

/-- fetchWithRetry (api module of src/data/mockData.ts): attempts
0..maxRetries, each attempt outcome drawn from the stream `resp`. -/
def fetchWithRetry (resp : Nat → AttemptOutcome) (maxRetries : Nat) :
    Except String Nat × Nat × List Nat :=
  fetchAux resp maxRetries 0 (maxRetries + 1) none

/-- The geohash base-32 alphabet (zone module of src/data/mockData.ts). -/
def BASE32 : Str := "0123456789bcdefghjkmnpqrstuvwxyz".data

/-- The subdivision state of encodeGeohash: the current latitude and
longitude ranges and which axis the next bit subdivides.  Coordinates are
modelled as rationals; every value this algorithm computes for precisions
up to 12 is a dyadic rational represented exactly by the doubles of the
source. -/
structure GeoState where
  latMin : ℚ
  latMax : ℚ
  lonMin : ℚ
  lonMax : ℚ
  isLon : Bool
deriving DecidableEq, Repr

/-- The initial subdivision state of encodeGeohash. -/
def geoInit : GeoState := ⟨-90, 90, -180, 180, true⟩

/-- One loop iteration of encodeGeohash: halve the active range at its
midpoint, emit the bit telling which half contains the coordinate, and
switch axes. -/
def geoStep (latitude longitude : ℚ) (s : GeoState) : Bool × GeoState :=
  if s.isLon then
    let mid := (s.lonMin + s.lonMax) / 2
    if mid ≤ longitude then (true, { s with lonMin := mid, isLon := false })
    else (false, { s with lonMax := mid, isLon := false })
  else
    let mid := (s.latMin + s.latMax) / 2
    if mid ≤ latitude then (true, { s with latMin := mid, isLon := true })
    else (false, { s with latMax := mid, isLon := true })

/-- Run `n` subdivision iterations, returning the emitted bits (most
significant first, as the source shifts them into `ch`) and the final
state. -/
def geoBitsN (latitude longitude : ℚ) (s : GeoState) : Nat → List Bool × GeoState
  | 0 => ([], s)
  | n + 1 =>
      let bs := geoStep latitude longitude s
      let rest := geoBitsN latitude longitude bs.2 n
      (bs.1 :: rest.1, rest.2)

/-- Pack a bit list into the accumulator value `ch` of the source
(`ch = ch << 1 | bit`). -/
def bitsToNat (bs : List Bool) : Nat :=
  bs.foldl (fun acc b => 2 * acc + (if b then 1 else 0)) 0

/-- Translate a 5-bit group value to its base-32 symbol (`BASE32[ch]`). -/
def base32Char (ch : Nat) : Char :=
  BASE32.getD ch '0'

/-- The subdivision loop of encodeGeohash, one recursion step per emitted
character: five bits are produced and packed into one base-32 symbol, and
the loop continues from the resulting state until `precision` characters
exist. -/
def geohashAux (latitude longitude : ℚ) (s : GeoState) : Nat → Str
  | 0 => []
  | n + 1 =>
      let bs := geoBitsN latitude longitude s 5
      base32Char (bitsToNat bs.1) :: geohashAux latitude longitude bs.2 n

/-- encodeGeohash (zone module of src/data/mockData.ts): validate the
coordinate and precision ranges, then run the interleaved binary
subdivision. -/
def encodeGeohash (latitude longitude : ℚ) (precision : Nat) : Except String Str :=
  if latitude < -90 ∨ 90 < latitude then
    Except.error "Latitude must be between -90 and 90"
  else if longitude < -180 ∨ 180 < longitude then
    Except.error "Longitude must be between -180 and 180"
  else if precision < 1 ∨ 12 < precision then
    Except.error "Precision must be between 1 and 12"
  else Except.ok (geohashAux latitude longitude geoInit precision)

/-- A schema-valid demo payload used to instantiate theorems. -/
def demoPayload : QRPayload :=
  { v := 1
    event_id := "event-01".data
    asset := List.replicate 32 'a'
    nonce := "nonce-01".data
    issued_at := 0
    expires_at := 1000
    zone := "dr5ru".data
    sig := List.replicate 64 's' }

/-- A decoder that accepts every base58 string (demo collaborator). -/
def demoDecode : Str → Option (List Nat) := fun _ => some []

/-- A verifier that accepts every signature (demo collaborator). -/
def demoVerifyTrue : List Nat → Str → List Nat → Bool := fun _ _ _ => true

/-- A verifier that rejects every signature (demo collaborator). -/
def demoVerifyFalse : List Nat → Str → List Nat → Bool := fun _ _ _ => false

/-- A demo trusted organizer key. -/
def demoKey : Str := List.replicate 32 'k'

/-- C9: after every recordNonce operation the used-nonce set has at most
1000 entries; the result is always a suffix of the set with the nonce
added, so any evicted entries are the oldest-inserted ones; no eviction
happens at 1000 or fewer entries, and when eviction happens exactly the
500 most recently inserted entries are retained. -/
theorem recordNonce_bounded_oldest_first (usedNonces : List Str) (nonce : Str) :
    (recordNonce nonce usedNonces).length ≤ 1000 ∧
    recordNonce nonce usedNonces <:+ setAdd usedNonces nonce ∧
    ((setAdd usedNonces nonce).length ≤ 1000 →
      recordNonce nonce usedNonces = setAdd usedNonces nonce) ∧
    (1000 < (setAdd usedNonces nonce).length →
      recordNonce nonce usedNonces =
        (setAdd usedNonces nonce).drop ((setAdd usedNonces nonce).length - 500)) := by
  unfold recordNonce
  by_cases h : 1000 < (setAdd usedNonces nonce).length
  · refine ⟨?_, ?_, ?_, ?_⟩
    · simp only [h, if_true, List.length_drop]
      omega
    · simp only [h, if_true]
      exact List.drop_suffix _ _
    · intro hle
      omega
    · intro _
      simp [h]
  · refine ⟨?_, ?_, ?_, ?_⟩
    · simp only [h, if_false]
      omega
    · simp only [h, if_false]
      exact List.suffix_refl _
    · intro _
      simp [h]
    · intro hgt
      omega

/-- C9 witness: recordNonce at a concrete small ledger. -/
theorem recordNonce_bounded_oldest_first_witness :
    (recordNonce "nonce-01".data []).length ≤ 1000 ∧
    recordNonce "nonce-01".data [] <:+ setAdd [] "nonce-01".data ∧
    ((setAdd [] "nonce-01".data).length ≤ 1000 →
      recordNonce "nonce-01".data [] = setAdd [] "nonce-01".data) ∧
    (1000 < (setAdd [] "nonce-01".data).length →
      recordNonce "nonce-01".data [] =
        (setAdd [] "nonce-01".data).drop ((setAdd [] "nonce-01".data).length - 500)) :=
  recordNonce_bounded_oldest_first [] "nonce-01".data

/-- C2 counterexample: with a decoder and verifier that accept, a payload
whose issuer reference fields (asset mint, event id) are not members of
the trusted set is still verified as valid — no invalid-issuer rejection
happens before (or after) the cryptographic check. -/
theorem verifySignature_accepts_untrusted_issuer :
    (verifySignature demoDecode demoVerifyTrue demoPayload [demoKey]).valid = true ∧
    demoPayload.asset ∉ [demoKey] ∧ demoPayload.event_id ∉ [demoKey] := by
  refine ⟨rfl, ?_, ?_⟩ <;> decide

/-- C2 amended: verifySignature performs no issuer-membership test at all.
Its result depends only on the first trusted key, and its only failure
results are the generic invalid-signature and verification-failed ones;
no issuer-related rejection exists. -/
theorem verifySignature_ignores_trusted_set_membership
    (dec : Str → Option (List Nat)) (ver : List Nat → Str → List Nat → Bool)
    (payload : QRPayload) (k : Str) (rest rest2 : List Str) :
    verifySignature dec ver payload (k :: rest) =
      verifySignature dec ver payload (k :: rest2) ∧
    ((verifySignature dec ver payload (k :: rest)).error = none ∨
      (verifySignature dec ver payload (k :: rest)).error = some "Invalid signature" ∨
      (verifySignature dec ver payload (k :: rest)).error =
        some "Signature verification failed") := by
  constructor
  · rfl
  · unfold verifySignature
    cases dec payload.sig <;> cases dec ((k :: rest).headD []) <;> simp
    split <;> simp

/-- C3: the zone value that mintAttendanceNFT persists into the attendance
zone_hash column and transmits in the /mint request body is the raw
payload zone (here the 5-character geocell code), not its SHA-256 digest:
since every SHA-256 hex digest has 64 characters, the recorded value can
never equal a digest. -/
theorem mintAttendanceNFT_persists_raw_zone (walletPubkey userId txSig : Str) :
    (mintAttendanceNFT demoPayload walletPubkey userId txSig).2.zone_hash =
      demoPayload.zone ∧
    (mintAttendanceNFT demoPayload walletPubkey userId txSig).1.payload.zone =
      demoPayload.zone ∧
    (mintAttendanceNFT demoPayload walletPubkey userId txSig).2.zone_hash.length = 5 ∧
    ∀ digest : Str, digest.length = 64 →
      (mintAttendanceNFT demoPayload walletPubkey userId txSig).2.zone_hash ≠ digest := by
  refine ⟨rfl, rfl, rfl, fun digest hlen heq => ?_⟩
  have h5 : (mintAttendanceNFT demoPayload walletPubkey userId txSig).2.zone_hash.length = 5 :=
    rfl
  rw [heq, hlen] at h5
  omega

/-- C3 witness: the persisted zone at a concrete digest function value. -/
theorem mintAttendanceNFT_persists_raw_zone_witness :
    (List.replicate 64 '0').length = 64 ∧
    (mintAttendanceNFT demoPayload [] [] []).2.zone_hash ≠ List.replicate 64 '0' :=
  ⟨by simp, (mintAttendanceNFT_persists_raw_zone [] [] []).2.2.2
    (List.replicate 64 '0') (by simp)⟩

/-- A queue item sitting in the needs-resign state. -/
def demoNeedsResignItem : QueueItem :=
  { id := "q-1".data
    signedTx := "tx-old".data
    eventId := "event-01".data
    eventName := "Event".data
    createdAt := 0
    status := QStatus.needsResign
    retries := 0 }

/-- C7 counterexample: the single-item retry path moves a needs-resign
item to pending while keeping its existing signed transaction — no fresh
signed transaction is supplied. -/
theorem handleRetry_moves_needsResign_to_pending :
    demoNeedsResignItem.status = QStatus.needsResign ∧
    handleRetry [demoNeedsResignItem] demoNeedsResignItem.id =
      [{ demoNeedsResignItem with status := QStatus.pending, retries := 1 }] ∧
    (handleRetry [demoNeedsResignItem] demoNeedsResignItem.id).map (fun i => i.signedTx) =
      [demoNeedsResignItem.signedTx] := by
  refine ⟨rfl, ?_, ?_⟩ <;> decide

/-- C7 amended: handleRetry (invoked per item by retry-all as well) moves
any queue item whose id is requested — whatever its status, needs-resign
included — to pending with an incremented retry counter, and never
changes any signed transaction in the queue. -/
theorem handleRetry_retries_any_status (queueItems : List QueueItem) (item : QueueItem)
    (hmem : item ∈ queueItems) :
    { item with status := QStatus.pending, retries := item.retries + 1 } ∈
      handleRetry queueItems item.id ∧
    (handleRetry queueItems item.id).map (fun i => i.signedTx) =
      queueItems.map (fun i => i.signedTx) := by
  unfold handleRetry
  cases hf : queueItems.find? (fun i => i.id == item.id) with
  | none =>
      rw [List.find?_eq_none] at hf
      exact absurd (by simp : (item.id == item.id) = true) (by simpa using hf item hmem)
  | some found =>
      constructor
      · have : ({ item with status := QStatus.pending, retries := item.retries + 1 }
            : QueueItem) =
            (fun i : QueueItem =>
              if i.id == item.id then
                { i with status := QStatus.pending, retries := i.retries + 1 }
              else i) item := by
          simp
        rw [this]
        exact List.mem_map_of_mem _ hmem
      · rw [List.map_map]
        apply List.map_congr_left
        intro a _
        by_cases ha : a.id = item.id <;> simp [ha]

/-- C7 amended witness: the amended behaviour at the concrete
needs-resign item. -/
theorem handleRetry_retries_any_status_witness :
    { demoNeedsResignItem with status := QStatus.pending, retries := demoNeedsResignItem.retries + 1 } ∈
      handleRetry [demoNeedsResignItem] demoNeedsResignItem.id ∧
    (handleRetry [demoNeedsResignItem] demoNeedsResignItem.id).map (fun i => i.signedTx) =
      [demoNeedsResignItem].map (fun i => i.signedTx) :=
  handleRetry_retries_any_status [demoNeedsResignItem] demoNeedsResignItem (by simp)

/-- C5 counterexample: for an observed code of length 2 with tolerance 2,
the claimed acceptance predicate truncates to a (length - k) = 0-character
prefix, which every allowed code shares, while checkZoneMatch clamps the
truncation length to 1 character and rejects. -/
theorem checkZoneMatch_rejects_spec_accepted_code :
    zoneMatchSpec "ab".data ["xy".data] 2 ∧
    checkZoneMatch "ab".data ["xy".data] 2 = none := by
  constructor
  · exact Or.inr ⟨by decide, "xy".data, by decide, by decide⟩
  · decide

/-- C5 amended: checkZoneMatch accepts exactly those observed codes that
either equal some allowed code or, with tolerance k > 0, agree with some
allowed code on the first max(1, length - k) characters (the source clamps
the compared prefix length at one character). -/
theorem checkZoneMatch_accepts_iff (userZone : Str) (allowedZones : List Str)
    (tolerance : Nat) :
    (checkZoneMatch userZone allowedZones tolerance).isSome = true ↔
      ((∃ zone ∈ allowedZones, userZone = zone) ∨
        (0 < tolerance ∧ ∃ zone ∈ allowedZones,
          userZone.take (max 1 (userZone.length - tolerance)) =
            zone.take (max 1 (userZone.length - tolerance)))) := by
  unfold checkZoneMatch
  cases hf : allowedZones.find? (fun zone => zone == userZone) with
  | some zone =>
      simp only [Option.isSome_some, true_iff]
      left
      refine ⟨zone, List.mem_of_find?_eq_some hf, ?_⟩
      have := List.find?_some hf
      simp only [beq_iff_eq] at this
      exact this.symm
  | none =>
      rw [List.find?_eq_none] at hf
      have hne : ¬ ∃ zone ∈ allowedZones, userZone = zone := by
        rintro ⟨zone, hz, heq⟩
        exact absurd (show (zone == userZone) = true by simp [heq]) (hf zone hz)
      by_cases ht : 0 < tolerance
      · rw [if_pos ht, List.find?_isSome]
        constructor
        · rintro ⟨zone, hz, hpref⟩
          rw [beq_iff_eq] at hpref
          exact Or.inr ⟨ht, zone, hz, hpref.symm⟩
        · rintro (h | ⟨-, zone, hz, hpref⟩)
          · exact absurd h hne
          · exact ⟨zone, hz, by rw [beq_iff_eq]; exact hpref.symm⟩
      · rw [if_neg ht]
        simp only [Option.isSome_none, Bool.false_eq_true, false_iff]
        rintro (h | ⟨h0, -⟩)
        · exact hne h
        · exact ht h0

/-- C4 counterexample: a claim whose expiry lies strictly before the
current time but whose signature is rejected never reaches the time-window
stage, so the freshness sub-status stays checking instead of resolving
Expired. -/
theorem validateQRPayload_expired_claim_with_bad_sig_stays_checking :
    demoPayload.expires_at < Int.fdiv 2000000 1000 ∧
    (validateQRPayload demoDecode demoVerifyFalse 2000000 100 (some demoPayload)
        [demoKey] []).1.timeWindow = TimeStatus.checking := by
  exact ⟨by decide, rfl⟩

/-- C4 amended: for every claim that passes parsing/schema and signature
verification, whose window has started and whose expiry lies strictly
before the current time, the pipeline resolves the freshness sub-status to
Expired. -/
theorem validateQRPayload_expired_after_valid_sig
    (dec : Str → Option (List Nat)) (ver : List Nat → Str → List Nat → Bool)
    (nowMs : Int) (rawSize : Nat) (parsed : Option QRPayload)
    (trustedEventKeys usedNonces : List Str) (payload : QRPayload)
    (hparse : parseQRCode rawSize parsed = some payload)
    (hsig : (verifySignature dec ver payload trustedEventKeys).valid = true)
    (hstart : payload.issued_at ≤ Int.fdiv nowMs 1000)
    (hexp : payload.expires_at < Int.fdiv nowMs 1000) :
    (validateQRPayload dec ver nowMs rawSize parsed trustedEventKeys
        usedNonces).1.timeWindow = TimeStatus.expired := by
  unfold validateQRPayload
  rw [hparse]
  simp only [hsig, if_true]
  unfold validateTimeWindow
  rw [if_neg (not_lt.mpr hstart), if_pos hexp]
  simp

/-- C4 amended witness: the expired verdict at a concrete stale claim. -/
theorem validateQRPayload_expired_after_valid_sig_witness :
    (validateQRPayload demoDecode demoVerifyTrue 2000000 100 (some demoPayload)
        [demoKey] []).1.timeWindow = TimeStatus.expired :=
  validateQRPayload_expired_after_valid_sig demoDecode demoVerifyTrue 2000000 100
    (some demoPayload) [demoKey] [] demoPayload (by decide) (by decide) (by decide)
    (by decide)

/-- C10: a claim that passes parsing, signature and the expiry window but
whose issuance lies more than maxNonceAge = 300000 ms in the past resolves
the duplicate sub-status to duplicate even with a never-recorded nonce,
while the freshness sub-status stays valid — the maximum-age bound
surfaces through the replay sub-status. -/
theorem validateQRPayload_stale_claim_surfaces_as_duplicate
    (dec : Str → Option (List Nat)) (ver : List Nat → Str → List Nat → Bool)
    (nowMs : Int) (rawSize : Nat) (parsed : Option QRPayload)
    (trustedEventKeys usedNonces : List Str) (payload : QRPayload)
    (hparse : parseQRCode rawSize parsed = some payload)
    (hsig : (verifySignature dec ver payload trustedEventKeys).valid = true)
    (hstart : payload.issued_at ≤ Int.fdiv nowMs 1000)
    (hopen : Int.fdiv nowMs 1000 ≤ payload.expires_at)
    (hstale : maxNonceAge < nowMs - payload.issued_at * 1000)
    (_hfresh : payload.nonce ∉ usedNonces) :
    (validateQRPayload dec ver nowMs rawSize parsed trustedEventKeys
        usedNonces).1.duplicate = DupStatus.duplicate ∧
    (validateQRPayload dec ver nowMs rawSize parsed trustedEventKeys
        usedNonces).1.timeWindow = TimeStatus.valid := by
  unfold validateQRPayload
  rw [hparse]
  simp only [hsig, if_true]
  unfold validateTimeWindow
  rw [if_neg (not_lt.mpr hstart), if_neg (not_lt.mpr hopen)]
  unfold checkNonceReplay
  rw [if_pos hstale]
  simp

/-- C10 witness: the duplicate verdict at a concrete stale-but-open
claim whose nonce was never recorded. -/
theorem validateQRPayload_stale_claim_surfaces_as_duplicate_witness :
    (validateQRPayload demoDecode demoVerifyTrue 400000 100 (some demoPayload)
        [demoKey] []).1.duplicate = DupStatus.duplicate ∧
    (validateQRPayload demoDecode demoVerifyTrue 400000 100 (some demoPayload)
        [demoKey] []).1.timeWindow = TimeStatus.valid :=
  validateQRPayload_stale_claim_surfaces_as_duplicate demoDecode demoVerifyTrue 400000
    100 (some demoPayload) [demoKey] [] demoPayload (by decide) (by decide) (by decide)
    (by decide) (by decide) (by decide)

/-- C1: in a verification run, the nonce committed to the used-nonce
ledger is present exactly when all four sub-checks resolved successfully
(signature valid, time window valid, duplicate clear, location valid);
when nothing is committed the ledger is unchanged, and when a nonce is
committed the ledger is the result of exactly one recordNonce call. -/
theorem performVerification_commits_nonce_iff_all_pass
    (dec : Str → Option (List Nat)) (ver : List Nat → Str → List Nat → Bool)
    (nowMs : Int) (rawSize : Nat) (parsed : Option QRPayload)
    (trustedEventKeys usedNonces : List Str) (zoneOutcome : ZoneOutcome) :
    ((performVerification dec ver nowMs rawSize parsed trustedEventKeys usedNonces
        zoneOutcome).2.2.isSome = true ↔
      ((performVerification dec ver nowMs rawSize parsed trustedEventKeys usedNonces
          zoneOutcome).1.signature = SigStatus.valid ∧
        (performVerification dec ver nowMs rawSize parsed trustedEventKeys usedNonces
          zoneOutcome).1.timeWindow = TimeStatus.valid ∧
        (performVerification dec ver nowMs rawSize parsed trustedEventKeys usedNonces
          zoneOutcome).1.duplicate = DupStatus.clear ∧
        (performVerification dec ver nowMs rawSize parsed trustedEventKeys usedNonces
          zoneOutcome).1.location = LocStatus.valid)) ∧
    ((performVerification dec ver nowMs rawSize parsed trustedEventKeys usedNonces
        zoneOutcome).2.2 = none →
      (performVerification dec ver nowMs rawSize parsed trustedEventKeys usedNonces
        zoneOutcome).2.1 = usedNonces) ∧
    (∀ nonce, (performVerification dec ver nowMs rawSize parsed trustedEventKeys
        usedNonces zoneOutcome).2.2 = some nonce →
      (performVerification dec ver nowMs rawSize parsed trustedEventKeys usedNonces
        zoneOutcome).2.1 = recordNonce nonce usedNonces) := by
  unfold performVerification
  generalize validateQRPayload dec ver nowMs rawSize parsed trustedEventKeys usedNonces = vr
  obtain ⟨st, payloadOpt⟩ := vr
  cases payloadOpt with
  | none => simp
  | some payload =>
      dsimp only
      by_cases hz : zoneOutcome = ZoneOutcome.valid
      · rw [if_pos hz]
        split_ifs with hc
        · refine ⟨?_, ?_, ?_⟩
          · simp [hc.1, hc.2.1, hc.2.2.1]
          · intro h
            simp at h
          · intro nonce h
            obtain rfl : payload.nonce = nonce := by simpa using h
            rfl
        · refine ⟨?_, fun _ => rfl, ?_⟩
          · simp only [Option.isSome_none, Bool.false_eq_true, false_iff]
            intro h
            exact hc ⟨by simpa using h.1, by simpa using h.2.1, by simpa using h.2.2.1, rfl⟩
          · intro nonce h
            simp at h
      · rw [if_neg hz]
        have hcond : ¬(st.signature = SigStatus.valid ∧ st.timeWindow = TimeStatus.valid ∧
            st.duplicate = DupStatus.clear ∧ LocStatus.mismatch = LocStatus.valid) := by
          rintro ⟨-, -, -, hbad⟩
          exact absurd hbad (by decide)
        rw [if_neg hcond]
        refine ⟨?_, fun _ => rfl, ?_⟩
        · simp only [Option.isSome_none, Bool.false_eq_true, false_iff]
          intro h
          exact absurd (by simpa using h.2.2.2 : (LocStatus.mismatch = LocStatus.valid))
            (by decide)
        · intro nonce h
          simp at h

/-- C1 witness: a run where every sub-check succeeds commits the nonce. -/
theorem performVerification_commits_nonce_iff_all_pass_witness :
    ((performVerification demoDecode demoVerifyTrue 100000 100 (some demoPayload)
        [demoKey] [] ZoneOutcome.valid).2.2.isSome = true ↔
      ((performVerification demoDecode demoVerifyTrue 100000 100 (some demoPayload)
          [demoKey] [] ZoneOutcome.valid).1.signature = SigStatus.valid ∧
        (performVerification demoDecode demoVerifyTrue 100000 100 (some demoPayload)
          [demoKey] [] ZoneOutcome.valid).1.timeWindow = TimeStatus.valid ∧
        (performVerification demoDecode demoVerifyTrue 100000 100 (some demoPayload)
          [demoKey] [] ZoneOutcome.valid).1.duplicate = DupStatus.clear ∧
        (performVerification demoDecode demoVerifyTrue 100000 100 (some demoPayload)
          [demoKey] [] ZoneOutcome.valid).1.location = LocStatus.valid)) ∧
    ((performVerification demoDecode demoVerifyTrue 100000 100 (some demoPayload)
        [demoKey] [] ZoneOutcome.valid).2.2 = none →
      (performVerification demoDecode demoVerifyTrue 100000 100 (some demoPayload)
        [demoKey] [] ZoneOutcome.valid).2.1 = []) ∧
    (∀ nonce, (performVerification demoDecode demoVerifyTrue 100000 100
        (some demoPayload) [demoKey] [] ZoneOutcome.valid).2.2 = some nonce →
      (performVerification demoDecode demoVerifyTrue 100000 100 (some demoPayload)
        [demoKey] [] ZoneOutcome.valid).2.1 = recordNonce nonce []) :=
  performVerification_commits_nonce_iff_all_pass demoDecode demoVerifyTrue 100000 100
    (some demoPayload) [demoKey] [] ZoneOutcome.valid

/-- The immediate-return decision of one attempt is independent of the
accumulated lastError. -/
theorem attemptResult_fst_const (outcome : AttemptOutcome) (e : Option String) :
    (attemptResult outcome e).1 = (attemptResult outcome none).1 := by
  cases outcome with
  | ok status =>
      unfold attemptResult
      dsimp only
      split_ifs <;> rfl
  | netError msg => rfl

/-- The retry loop performs at most `fuel` attempts. -/
theorem fetchAux_attempts_le (resp : Nat → AttemptOutcome) (maxRetries : Nat) :
    ∀ fuel attempt lastError,
      (fetchAux resp maxRetries attempt fuel lastError).2.1 ≤ fuel := by
  intro fuel
  induction fuel with
  | zero =>
      intro attempt lastError
      simp [fetchAux]
  | succ n ih =>
      intro attempt lastError
      unfold fetchAux
      dsimp only
      generalize attemptResult (resp attempt) lastError = ar
      obtain ⟨r1, r2⟩ := ar
      cases r1 with
      | some status => simp
      | none =>
          dsimp only
          split_ifs <;> simpa using Nat.succ_le_succ (ih _ _)

/-- The backoff delays of the retry loop starting at a given attempt index
form the exponential sequence retryDelay * 2 ^ (attempt + i), and delays
are only waited while the attempt index is below maxRetries. -/
theorem fetchAux_delays_form (resp : Nat → AttemptOutcome) (maxRetries : Nat) :
    ∀ fuel attempt lastError, ∃ k,
      (fetchAux resp maxRetries attempt fuel lastError).2.2 =
        (List.range k).map (fun i => retryDelay * 2 ^ (attempt + i)) ∧
      (k = 0 ∨ attempt + k ≤ maxRetries) := by
  intro fuel
  induction fuel with
  | zero =>
      intro attempt lastError
      exact ⟨0, by simp [fetchAux], Or.inl rfl⟩
  | succ n ih =>
      intro attempt lastError
      unfold fetchAux
      dsimp only
      generalize attemptResult (resp attempt) lastError = ar
      obtain ⟨r1, r2⟩ := ar
      cases r1 with
      | some status => exact ⟨0, by simp, Or.inl rfl⟩
      | none =>
          dsimp only
          by_cases hlt : attempt < maxRetries
          · rw [if_pos hlt]
            obtain ⟨k, hds, hk⟩ := ih (attempt + 1) r2
            refine ⟨k + 1, ?_, Or.inr ?_⟩
            · dsimp only
              have hhead : retryDelay * 2 ^ attempt = retryDelay * 2 ^ (attempt + 0) := by
                norm_num
              have htail : (fun i => retryDelay * 2 ^ (attempt + 1 + i)) =
                  ((fun i => retryDelay * 2 ^ (attempt + i)) ∘ Nat.succ) := by
                funext i
                have hx : attempt + 1 + i = attempt + (i + 1) := by omega
                simp [Function.comp_apply, hx]
              rw [hds, List.range_succ_eq_map, List.map_cons, List.map_map, ← htail, ← hhead]
            · rcases hk with rfl | h <;> omega
          · rw [if_neg hlt]
            obtain ⟨k, hds, hk⟩ := ih (attempt + 1) r2
            rcases hk with rfl | h
            · exact ⟨0, by simpa using hds, Or.inl rfl⟩
            · omega

/-- When every attempt outcome is retryable, the loop uses all its fuel
and surfaces the failure as a thrown error. -/
theorem fetchAux_all_fail (resp : Nat → AttemptOutcome) (maxRetries : Nat)
    (hall : ∀ i, retriesOn (resp i) = true) :
    ∀ fuel attempt lastError,
      (fetchAux resp maxRetries attempt fuel lastError).2.1 = fuel ∧
      ∃ msg, (fetchAux resp maxRetries attempt fuel lastError).1 = Except.error msg := by
  intro fuel
  induction fuel with
  | zero =>
      intro attempt lastError
      exact ⟨rfl, _, rfl⟩
  | succ n ih =>
      intro attempt lastError
      unfold fetchAux
      dsimp only
      have h1 : (attemptResult (resp attempt) lastError).1 = none := by
        rw [attemptResult_fst_const]
        have := hall attempt
        rw [retriesOn] at this
        exact Option.isNone_iff_eq_none.mp this
      rw [h1]
      dsimp only
      split_ifs
      · exact ⟨by rw [(ih _ _).1], (ih _ _).2⟩
      · exact ⟨by rw [(ih _ _).1], (ih _ _).2⟩

/-- C8: fetchWithRetry performs at most maxRetries + 1 attempts; the
delays it waits between consecutive attempts are exactly the exponential
sequence retryDelay * 2 ^ i for i below some k ≤ maxRetries, hence each
delay is bounded by retryDelay * 2 ^ maxRetries; and when every attempt
fails retryably it performs exactly the capped number of attempts and then
surfaces the failure to the caller as a thrown error, with no further
retry. -/
theorem fetchWithRetry_bounded_backoff (resp : Nat → AttemptOutcome) (maxRetries : Nat) :
    (fetchWithRetry resp maxRetries).2.1 ≤ maxRetries + 1 ∧
    (∃ k, k ≤ maxRetries ∧ (fetchWithRetry resp maxRetries).2.2 =
      (List.range k).map (fun i => retryDelay * 2 ^ i)) ∧
    (∀ d ∈ (fetchWithRetry resp maxRetries).2.2, d ≤ retryDelay * 2 ^ maxRetries) ∧
    ((∀ i, retriesOn (resp i) = true) →
      (fetchWithRetry resp maxRetries).2.1 = maxRetries + 1 ∧
      ∃ msg, (fetchWithRetry resp maxRetries).1 = Except.error msg) := by
  unfold fetchWithRetry
  obtain ⟨k, hds, hk⟩ := fetchAux_delays_form resp maxRetries (maxRetries + 1) 0 none
  have hk2 : k ≤ maxRetries := by
    rcases hk with rfl | h
    · exact Nat.zero_le _
    · omega
  refine ⟨fetchAux_attempts_le resp maxRetries (maxRetries + 1) 0 none,
    ⟨k, hk2, by simpa using hds⟩, ?_, fun hall => fetchAux_all_fail resp maxRetries hall _ _ _⟩
  intro d hd
  rw [hds] at hd
  obtain ⟨i, hi, rfl⟩ := List.mem_map.mp hd
  have hik : i < k := List.mem_range.mp hi
  have hpow : 2 ^ (0 + i) ≤ 2 ^ maxRetries :=
    Nat.pow_le_pow_right (by norm_num) (by omega)
  exact Nat.mul_le_mul_left retryDelay hpow

/-- An attempt stream where the relay is unreachable on every attempt. -/
def demoRespFail : Nat → AttemptOutcome := fun _ => AttemptOutcome.netError "network down"

/-- C8 witness: the bounds at maxRetries = 3 with an always-failing
stream. -/
theorem fetchWithRetry_bounded_backoff_witness :
    (fetchWithRetry demoRespFail 3).2.1 ≤ 3 + 1 ∧
    (∃ k, k ≤ 3 ∧ (fetchWithRetry demoRespFail 3).2.2 =
      (List.range k).map (fun i => retryDelay * 2 ^ i)) ∧
    (∀ d ∈ (fetchWithRetry demoRespFail 3).2.2, d ≤ retryDelay * 2 ^ 3) ∧
    ((∀ i, retriesOn (demoRespFail i) = true) →
      (fetchWithRetry demoRespFail 3).2.1 = 3 + 1 ∧
      ∃ msg, (fetchWithRetry demoRespFail 3).1 = Except.error msg) :=
  fetchWithRetry_bounded_backoff demoRespFail 3

/-- The subdivision state after emitting a number of characters. -/
def geoRun (latitude longitude : ℚ) (s : GeoState) : Nat → GeoState
  | 0 => s
  | n + 1 => geoRun latitude longitude (geoBitsN latitude longitude s 5).2 n

/-- Each geohash character step emits exactly one symbol, so the output
has exactly `n` symbols. -/
theorem geohashAux_length (latitude longitude : ℚ) :
    ∀ n s, (geohashAux latitude longitude s n).length = n := by
  intro n
  induction n with
  | zero =>
      intro s
      rfl
  | succ m ih =>
      intro s
      unfold geohashAux
      simp [ih]

/-- Unfolding equation for one geohash character step. -/
theorem geohashAux_succ (latitude longitude : ℚ) (s : GeoState) (n : Nat) :
    geohashAux latitude longitude s (n + 1) =
      base32Char (bitsToNat (geoBitsN latitude longitude s 5).1) ::
        geohashAux latitude longitude (geoBitsN latitude longitude s 5).2 n := rfl

/-- Unfolding equation for one step of geoRun. -/
theorem geoRun_succ (latitude longitude : ℚ) (s : GeoState) (n : Nat) :
    geoRun latitude longitude s (n + 1) =
      geoRun latitude longitude (geoBitsN latitude longitude s 5).2 n := rfl

/-- Splitting the geohash character loop: the first m characters do not
depend on how many further characters are requested. -/
theorem geohashAux_add (latitude longitude : ℚ) :
    ∀ m n s, geohashAux latitude longitude s (m + n) =
      geohashAux latitude longitude s m ++
        geohashAux latitude longitude (geoRun latitude longitude s m) n := by
  intro m
  induction m with
  | zero =>
      intro n s
      rw [Nat.zero_add]
      rfl
  | succ m ih =>
      intro n s
      have hx : m + 1 + n = (m + n) + 1 := by omega
      rw [hx, geohashAux_succ, geohashAux_succ, geoRun_succ,
        ih n ((geoBitsN latitude longitude s 5).2), List.cons_append]

/-- C6: for valid coordinates and precisions 1 ≤ p ≤ q ≤ 12, the geohash
at precision p is a prefix of the geohash at precision q, and each output
has exactly as many base-32 symbols as its precision. -/
theorem encodeGeohash_refinement (latitude longitude : ℚ) (p q : Nat)
    (hlat1 : -90 ≤ latitude) (hlat2 : latitude ≤ 90)
    (hlon1 : -180 ≤ longitude) (hlon2 : longitude ≤ 180)
    (hp : 1 ≤ p) (hpq : p ≤ q) (hq : q ≤ 12) :
    ∃ s t, encodeGeohash latitude longitude p = Except.ok s ∧
      encodeGeohash latitude longitude q = Except.ok t ∧
      s <+: t ∧ s.length = p ∧ t.length = q := by
  have hlat : ¬(latitude < -90 ∨ 90 < latitude) := by
    push_neg
    exact ⟨hlat1, hlat2⟩
  have hlon : ¬(longitude < -180 ∨ 180 < longitude) := by
    push_neg
    exact ⟨hlon1, hlon2⟩
  have hpv : ¬(p < 1 ∨ 12 < p) := by omega
  have hqv : ¬(q < 1 ∨ 12 < q) := by omega
  unfold encodeGeohash
  rw [if_neg hlat, if_neg hlon, if_neg hpv, if_neg hlat, if_neg hlon, if_neg hqv]
  refine ⟨_, _, rfl, rfl, ?_, geohashAux_length _ _ _ _, geohashAux_length _ _ _ _⟩
  have hsplit : q = p + (q - p) := by omega
  rw [hsplit, geohashAux_add]
  exact List.prefix_append _ _

/-- C6 witness: refinement at a concrete coordinate with precisions 2
and 4. -/
theorem encodeGeohash_refinement_witness :
    ∃ s t, encodeGeohash 40 (-74) 2 = Except.ok s ∧
      encodeGeohash 40 (-74) 4 = Except.ok t ∧
      s <+: t ∧ s.length = 2 ∧ t.length = 4 :=
  encodeGeohash_refinement 40 (-74) 2 4 (by decide) (by decide) (by decide) (by decide)
    (by decide) (by decide) (by decide)

end Soltag
